import Mathlib

/-!
# Verification of the desyplan relay frame-dispatch and animation subsystem

Shallow embedding of `src/controller/relay_controller.py`,
`src/controller/display_manager.py` and `src/controller/animation.py`.
Python lists become `List`, machine bytes become `Nat` (each produced byte is
< 256 by construction), wall-clock time becomes `ℚ`, and the outcome of each
fallible transport operation (serial write, buffer reset, reopen, `is_open`)
is supplied by an explicit per-slave oracle, so that one Lean function call
models one Python call under one fixed pattern of transport failures.
-/

namespace Desyplan

/-! ## Bit packer: `RelayController._pack_bits`

Python source:
```
def _pack_bits(self, bits):
    packed = []
    for i in range(0, len(bits), 8):
        byte_val = 0
        for b in range(8):
            if i + b < len(bits):
                if bits[i + b]:
                    byte_val |= (1 << b)
        packed.append(byte_val)
    return packed
```
The inner `for b in range(8)` loop is embedded as a recursion on the number of
iterations already performed; `bits[i+b]` truthiness is `≠ 0` on ints.
-/

/-- The inner byte-accumulation loop of `_pack_bits`: `packByteLoop bits i k`
is the value of `byte_val` after the first `k` iterations of
`for b in range(8)`, starting from chunk offset `i`. -/
def packByteLoop (bits : List Nat) (i : Nat) : Nat → Nat
  | 0 => 0
  | b + 1 =>
    packByteLoop bits i b |||
      (if i + b < bits.length ∧ bits.getD (i + b) 0 ≠ 0 then 1 <<< b else 0)

/-- `RelayController._pack_bits`: the outer loop visits `i = 0, 8, 16, ...`,
i.e. `i = 8 * k` for `k < ⌈len/8⌉`, and appends one byte per chunk. -/
def pack_bits (bits : List Nat) : List Nat :=
  (List.range ((bits.length + 7) / 8)).map (fun k => packByteLoop bits (8 * k) 8)


/-! ## Relay dispatcher: `RelayController`

`dispatch_frame`, `reset_buffers` and `scan_bus` act on the per-slave state
`slave_online : List Bool`.  The outcome of each fallible transport call
(whether the `try` block around the serial write raises, whether a buffer
reset raises, whether reopening a port succeeds, whether `is_open` holds)
is supplied by explicit per-slave oracle values, and an exception caught by
the Python code corresponds to the oracle reporting a failure: the embedded
functions are total, exactly as the Python functions return normally. -/

/-- The configuration snapshot the dispatcher reads at construction:
`LEDS_PER_SLAVE` and `total_relays` (from `Config`). -/
structure RCConfig where
  leds_per_slave : Nat
  total_relays : Nat

/-- The padding step at the top of `dispatch_frame`:
`if len(frame_data) < self.total_relays: frame_data += [0] * (...)`.
Python's `+=` on a list extends the caller's list object in place, so the
result is the content of the caller's `frame_data` after the call. -/
def padFrame (total : Nat) (frame : List Nat) : List Nat :=
  if frame.length < total then frame ++ List.replicate (total - frame.length) 0
  else frame

/-- The serial packet built for slave `i` inside `dispatch_frame`:
slice `frame_data[i*LEDS_PER_SLAVE : (i+1)*LEDS_PER_SLAVE]`, pack it, and
frame it as `FF AA <len> <payload> 55 FF`. -/
def slavePacket (lps : Nat) (padded : List Nat) (i : Nat) : List Nat :=
  let slave_chunk := (padded.drop (i * lps)).take lps
  let packed_bytes := pack_bits slave_chunk
  [0xFF, 0xAA, packed_bytes.length] ++ packed_bytes ++ [0x55, 0xFF]

/-- Per-slave outcome of one `dispatch_frame` loop iteration, given
`(online, writeFails)`: the resulting liveness flag, whether a write was
attempted, and the packet delivered on success (`none` if the slave was
skipped or the `try` block raised). -/
def dispatchSlave (lps : Nat) (padded : List Nat) (i : Nat)
    (p : Bool × Bool) : Bool × Bool × Option (List Nat) :=
  if p.1 = false then (false, false, none)
  else if p.2 = true then (false, true, none)
  else (true, true, some (slavePacket lps padded i))

/-- The `for i, conn in enumerate(self.serial_connections)` loop of
`dispatch_frame`, over the zipped `(slave_online, writeFails)` list starting
at slave index `i`. -/
def dispatchLoop (lps : Nat) (padded : List Nat) :
    Nat → List (Bool × Bool) → List (Bool × Bool × Option (List Nat))
  | _, [] => []
  | i, p :: rest => dispatchSlave lps padded i p :: dispatchLoop lps padded (i + 1) rest

/-- Result of one `dispatch_frame` call: the caller-visible content of the
`frame_data` argument after the call (mutated in place by the padding `+=`)
and the per-slave outcomes. -/
structure DispatchResult where
  frameAfter : List Nat
  slaves : List (Bool × Bool × Option (List Nat))
deriving DecidableEq

/-- `RelayController.dispatch_frame`, for one fixed pattern of per-slave
write failures `writeFails`.  A raised exception on one slave is caught,
logged and turned into `slave_online[i] = False`; the function always
returns normally. -/
def dispatch_frame (cfg : RCConfig) (slave_online writeFails : List Bool)
    (frame : List Nat) : DispatchResult :=
  let padded := padFrame cfg.total_relays frame
  ⟨padded, dispatchLoop cfg.leds_per_slave padded 0 (slave_online.zip writeFails)⟩

/-- Per-slave outcome of one `reset_buffers` loop iteration (non-mock mode):
offline slaves are skipped (`continue`); on an online slave the two
`reset_*_buffer` calls are attempted and an exception marks it offline.
Returns `(new liveness flag, whether a reset was attempted)`. -/
def resetSlave (online resetFails : Bool) : Bool × Bool :=
  if online = false then (false, false)
  else if resetFails then (false, true)
  else (true, true)

/-- `RelayController.reset_buffers`: in mock mode the method returns at once;
otherwise it loops over all slaves. -/
def reset_buffers (mock : Bool) (slave_online resetFails : List Bool) :
    List (Bool × Bool) :=
  if mock then slave_online.map (fun o => (o, false))
  else (slave_online.zip resetFails).map (fun p => resetSlave p.1 p.2)

/-- Per-slave transport oracle for one `scan_bus` call: whether opening a
fresh `serial.Serial` connection succeeds, and whether the connection then
checked has `is_open`. -/
structure ScanOracle where
  reopenOk : Bool
  isOpen : Bool
deriving DecidableEq

/-- Per-slave outcome of one `scan_bus` loop iteration.  An offline slave
first gets a reconnection attempt (in mock mode a `MockSerial` is always
constructed; otherwise `serial.Serial` may raise, which is caught and leaves
it offline); then the `if self.mock_mode or conn.is_open` check confirms the
slave, while a closed port marks it offline. -/
def scanSlave (mock online : Bool) (o : ScanOracle) : Bool :=
  let online1 := if online then online else (if mock then true else o.reopenOk)
  if mock then online1
  else if o.isOpen then online1
  else false

/-- `RelayController.scan_bus`, restricted to its effect on the per-slave
liveness flags, with one `ScanOracle` per slave. -/
def scan_bus (mock : Bool) (slave_online : List Bool)
    (oracles : List ScanOracle) : List Bool :=
  (slave_online.zip oracles).map (fun p => scanSlave mock p.1 p.2)


/-! ## Display facade: `DisplayManager.set_led`

```
def set_led(self, index, state):
    if 0 <= index < self.total_leds:
        self.buffer[index] = 1 if state else 0
```
`index` and `state` are arbitrary Python ints, embedded as `Int`; `1 if state
else 0` is int truthiness, i.e. `state ≠ 0`.  The function is total: an
out-of-range index falls through the guard and nothing happens. -/

/-- `DisplayManager.set_led` acting on the frame buffer. -/
def set_led (total_leds : Nat) (buffer : List Nat) (index state : Int) :
    List Nat :=
  if 0 ≤ index ∧ index < (total_leds : Int) then
    buffer.set index.toNat (if state ≠ 0 then 1 else 0)
  else buffer

/-! ## Animations: position logic of `ScanningChase`, `CircleAnimation`,
`LarsonScanner` (`src/controller/animation.py`). -/

/-- `ScanningChase._do_step` position update: `(self.position + 1) % self.dm.total_leds`.
`position` starts at 0 and stays non-negative, so `Nat` `%` matches Python `%`. -/
def scanningChase_next (total position : Nat) : Nat := (position + 1) % total

/-- The channel indices set by one `ScanningChase._do_step` before the update:
`(self.position + i) % self.dm.total_leds` for `i in range(self.width)`. -/
def scanningChase_lit (total width position : Nat) : List Nat :=
  (List.range width).map (fun i => (position + i) % total)

/-- `CircleAnimation._do_step` position update (same expression as the chase). -/
def circle_next (total position : Nat) : Nat := (position + 1) % total

/-- The channel indices set by one `CircleAnimation._do_step`:
only `self.position`. -/
def circle_lit (position : Nat) : List Nat := [position]

/-- `LarsonScanner` mutable state: `self.pos` (a Python int, may go negative)
and `self.direction` (`1` or `-1`). -/
structure LarsonState where
  pos : Int
  dir : Int
deriving DecidableEq

/-- `LarsonScanner.__init__`: `self.pos = 0; self.direction = 1`. -/
def larson_init : LarsonState := ⟨0, 1⟩

/-- Indices set by one `LarsonScanner._do_step`: `idx = self.pos + i` for
`i in range(self.width)`, guarded by `0 <= idx < self.dm.total_leds`. -/
def larson_lit (total width : Nat) (pos : Int) : List Int :=
  ((List.range width).map (fun i => pos + (i : Int))).filter
    (fun idx => decide (0 ≤ idx) && decide (idx < (total : Int)))

/-- `LarsonScanner._do_step` state update:
`self.pos += self.direction;
 if self.pos > self.dm.total_leds - self.width or self.pos < 0:
   self.direction *= -1`. -/
def larson_step (total width : Nat) (s : LarsonState) : LarsonState :=
  let pos := s.pos + s.dir
  let dir := if pos > (total : Int) - (width : Int) ∨ pos < 0 then -s.dir
             else s.dir
  ⟨pos, dir⟩

/-- The position sequence the code actually produces for 10 channels,
width 3, starting at `⟨0, 1⟩`: period 18, going 0..8 then back down
to −1 (the overshoot positions 8 and −1 are rendered but clipped by the
bounds guard in `larson_lit`). -/
def larsonCodeSeq (k : Nat) : Int :=
  ([0, 1, 2, 3, 4, 5, 6, 7, 8, 7, 6, 5, 4, 3, 2, 1, 0, -1] : List Int).getD
    (k % 18) 0

/-- The position sequence asserted by the spec's claim for the same
parameters — 0,1,...,7 then 6,5,...,0 then 1,... (period 14).  Translated
from the spec's words, for comparison against the code's sequence. -/
def larsonSpecSeq (k : Nat) : Int :=
  ([0, 1, 2, 3, 4, 5, 6, 7, 6, 5, 4, 3, 2, 1] : List Int).getD (k % 14) 0

/-! ## Timing: `Animation.safe_wait` under an exact-clock model

Wall-clock time is `ℚ`.  `time.time()` returns the current instant exactly and
`time.sleep(r)` advances it by exactly `r`; real sleeps may only be longer,
which can only widen the gaps proven below.  A step of an animation begins at
instant `start` with stored `last_update_time = last`, spends `compute` before
its `show` call returns control... specifically `show` is invoked at
`start + compute`, dispatch inside `show` takes `dispatch`, and then
`safe_wait(self.speed)` runs at instant `start + compute + dispatch`. -/

/-- `Animation.safe_wait`: entered at wall-clock instant `now` with the given
`last_update_time`; returns the instant at which it finishes, which is also
the `last_update_time` it stores (`time.time()` after the optional sleep). -/
def safe_wait (min_relay_delay duration last_update_time now : ℚ) : ℚ :=
  let target_delay := max duration min_relay_delay
  let time_since_last := now - last_update_time
  let remaining := target_delay - time_since_last
  if remaining > 0 then now + remaining else now

/-- The instant at which the `self.dm.show()` call of a step is issued, for a
step that began at `start` and computed its pattern for `compute` time. -/
def stepShowTime (start compute : ℚ) : ℚ := start + compute

/-- The instant at which a `_do_step` that began at instant `start` (with
stored `last_update_time = last`, pattern computation `compute`, dispatch
time `dispatch`) returns from its trailing `safe_wait(self.speed)`; this is
also the new `last_update_time`. -/
def stepEnd (min_relay_delay speed last start compute dispatch : ℚ) : ℚ :=
  safe_wait min_relay_delay speed last (start + compute + dispatch)


/-! ## Helper lemmas about the embedded functions -/

theorem packByteLoop_lt (bits : List Nat) (i : Nat) :
    ∀ k, packByteLoop bits i k < 2 ^ k := by
  intro k
  induction k with
  | zero => simp [packByteLoop]
  | succ b ih =>
    have h2 : (if i + b < bits.length ∧ bits.getD (i + b) 0 ≠ 0
        then 1 <<< b else 0) < 2 ^ (b + 1) := by
      split
      · have : (1 : Nat) <<< b = 2 ^ b := by
          simp [Nat.shiftLeft_eq]
        rw [this]
        exact Nat.pow_lt_pow_right (by norm_num) (Nat.lt_succ_self b)
      · positivity
    calc packByteLoop bits i (b + 1)
        ≤ packByteLoop bits i b |||
            (if i + b < bits.length ∧ bits.getD (i + b) 0 ≠ 0
             then 1 <<< b else 0) := le_refl _
      _ < 2 ^ (b + 1) := by
          apply Nat.or_lt_two_pow
          · exact lt_of_lt_of_le ih (Nat.pow_le_pow_right (by norm_num) (Nat.le_succ b))
          · exact h2

theorem packByteLoop_testBit (bits : List Nat) (i : Nat) :
    ∀ k b, Nat.testBit (packByteLoop bits i k) b =
      (decide (b < k) && decide (i + b < bits.length) &&
        decide (bits.getD (i + b) 0 ≠ 0)) := by
  intro k
  induction k with
  | zero => intro b; simp [packByteLoop]
  | succ j ih =>
    intro b
    rw [packByteLoop, Nat.testBit_or, ih b]
    have hshift : (1 : Nat) <<< j = 2 ^ j := by simp [Nat.shiftLeft_eq]
    have hsecond : Nat.testBit
        (if i + j < bits.length ∧ bits.getD (i + j) 0 ≠ 0
         then 1 <<< j else 0) b =
        (decide (b = j) && decide (i + j < bits.length) &&
          decide (bits.getD (i + j) 0 ≠ 0)) := by
      split
      · rename_i hc
        rw [hshift]
        by_cases hb : b = j
        · subst hb
          rw [Nat.testBit_two_pow_self, decide_eq_true hc.1, decide_eq_true hc.2]
          simp
        · rw [Nat.testBit_two_pow_of_ne (Ne.symm hb), decide_eq_false hb]
          simp
      · rename_i hc
        rcases Decidable.not_and_iff_or_not.mp hc with h | h
        · rw [decide_eq_false h]
          simp
        · rw [decide_eq_false h]
          simp
    rw [hsecond]
    by_cases hb : b = j
    · subst hb
      rw [decide_eq_false (lt_irrefl b), decide_eq_true (Nat.lt_succ_self b),
        decide_eq_true rfl]
      simp
    · by_cases hbj : b < j
      · rw [decide_eq_true hbj, decide_eq_true (Nat.lt_succ_of_lt hbj),
          decide_eq_false hb]
        simp
      · have h2 : ¬ b < j + 1 := by omega
        rw [decide_eq_false hbj, decide_eq_false h2, decide_eq_false hb]
        simp

theorem pack_bits_getD (bits : List Nat) (i : Nat)
    (h : i < (bits.length + 7) / 8) :
    (pack_bits bits).getD i 0 = packByteLoop bits (8 * i) 8 := by
  simp [pack_bits, List.getD_eq_getElem?_getD, List.getElem?_map,
    List.getElem?_range h]

theorem pack_bits_getD_of_ge (bits : List Nat) (i : Nat)
    (h : ¬ i < (bits.length + 7) / 8) :
    (pack_bits bits).getD i 0 = 0 := by
  apply List.getD_eq_default
  simp [pack_bits]
  omega

theorem dispatchLoop_length (lps : Nat) (padded : List Nat) :
    ∀ (l : List (Bool × Bool)) (i : Nat),
      (dispatchLoop lps padded i l).length = l.length := by
  intro l
  induction l with
  | nil => intro i; rfl
  | cons p rest ih => intro i; simp [dispatchLoop, ih]

theorem dispatchLoop_getD (lps : Nat) (padded : List Nat) :
    ∀ (l : List (Bool × Bool)) (i k : Nat), k < l.length →
      (dispatchLoop lps padded i l).getD k (false, false, none) =
        dispatchSlave lps padded (i + k) (l.getD k (false, false)) := by
  intro l
  induction l with
  | nil => intro i k hk; simp at hk
  | cons p rest ih =>
    intro i k hk
    cases k with
    | zero => simp [dispatchLoop]
    | succ k' =>
      have hk' : k' < rest.length := by simpa using hk
      have := ih (i + 1) k' hk'
      simp only [dispatchLoop, List.getD_cons_succ]
      rw [this]
      congr 1
      omega

theorem stepEnd_eq (m s L c d : ℚ) :
    stepEnd m s L L c d = L + max (c + d) (max s m) := by
  unfold stepEnd safe_wait
  simp only []
  split
  · rename_i h
    have hcd : c + d ≤ max s m := by linarith
    rw [max_eq_right hcd]
    ring
  · rename_i h
    have hcd : max s m ≤ c + d := by linarith
    rw [max_eq_left hcd]
    ring

/-! ## Generic list access lemmas used by the dispatcher proofs -/

theorem getD_zip {α β : Type} :
    ∀ (l₁ : List α) (l₂ : List β) (j : Nat) (d₁ : α) (d₂ : β),
      j < l₁.length → j < l₂.length →
      (l₁.zip l₂).getD j (d₁, d₂) = (l₁.getD j d₁, l₂.getD j d₂) := by
  intro l₁
  induction l₁ with
  | nil => intro l₂ j d₁ d₂ h₁ h₂; simp at h₁
  | cons a t ih =>
    intro l₂ j d₁ d₂ h₁ h₂
    cases l₂ with
    | nil => simp at h₂
    | cons b t₂ =>
      cases j with
      | zero => simp [List.zip_cons_cons]
      | succ j' =>
        have h₁' : j' < t.length := by simpa using h₁
        have h₂' : j' < t₂.length := by simpa using h₂
        simp only [List.zip_cons_cons, List.getD_cons_succ]
        exact ih t₂ j' d₁ d₂ h₁' h₂'

theorem getD_map {α β : Type} (f : α → β) :
    ∀ (l : List α) (j : Nat) (d : α),
      j < l.length → (l.map f).getD j (f d) = f (l.getD j d) := by
  intro l
  induction l with
  | nil => intro j d h; simp at h
  | cons a t ih =>
    intro j d h
    cases j with
    | zero => simp
    | succ j' =>
      have h' : j' < t.length := by simpa using h
      simp only [List.map_cons, List.getD_cons_succ]
      exact ih j' d h'

theorem getD_replicate {α : Type} (a d : α) :
    ∀ (n j : Nat), j < n → (List.replicate n a).getD j d = a := by
  intro n
  induction n with
  | zero => intro j h; simp at h
  | succ n' ih =>
    intro j h
    cases j with
    | zero => simp [List.replicate_succ]
    | succ j' =>
      have h' : j' < n' := by omega
      simp only [List.replicate_succ, List.getD_cons_succ]
      exact ih j' h'

theorem getD_map_of_lt {α β : Type} (f : α → β) (l : List α) (j : Nat)
    (d : α) (e : β) (h : j < l.length) :
    (l.map f).getD j e = f (l.getD j d) := by
  rw [List.getD_eq_getElem _ _ (by simpa using h), List.getElem_map,
    List.getD_eq_getElem _ _ h]

theorem dispatch_frame_slaves_getD (cfg : RCConfig)
    (slave_online writeFails : List Bool) (frame : List Nat) (k : Nat)
    (hk : k < slave_online.length) (hw : k < writeFails.length) :
    (dispatch_frame cfg slave_online writeFails frame).slaves.getD k
        (false, false, none) =
      dispatchSlave cfg.leds_per_slave (padFrame cfg.total_relays frame) k
        (slave_online.getD k false, writeFails.getD k false) := by
  have hz : k < (slave_online.zip writeFails).length := by
    rw [List.length_zip]; omega
  have hslaves : (dispatch_frame cfg slave_online writeFails frame).slaves =
      dispatchLoop cfg.leds_per_slave (padFrame cfg.total_relays frame) 0
        (slave_online.zip writeFails) := rfl
  rw [hslaves, dispatchLoop_getD _ _ _ 0 k hz,
    getD_zip _ _ k false false hk hw, Nat.zero_add]

theorem reset_buffers_getD (mock : Bool) (slave_online resetFails : List Bool)
    (k : Nat) (hk : k < slave_online.length) (hr : k < resetFails.length) :
    (reset_buffers mock slave_online resetFails).getD k (false, false) =
      if mock = true then (slave_online.getD k false, false)
      else resetSlave (slave_online.getD k false) (resetFails.getD k false) := by
  unfold reset_buffers
  cases mock with
  | true =>
    simp only [if_pos rfl]
    exact getD_map_of_lt _ _ k false _ hk
  | false =>
    have hz : k < (slave_online.zip resetFails).length := by
      rw [List.length_zip]; omega
    simp only [Bool.false_eq_true, if_false]
    rw [getD_map_of_lt _ _ k (false, false) _ hz,
      getD_zip _ _ k false false hk hr]

theorem scan_bus_getD (mock : Bool) (slave_online : List Bool)
    (oracles : List ScanOracle) (k : Nat)
    (hk : k < slave_online.length) (ho : k < oracles.length) :
    (scan_bus mock slave_online oracles).getD k false =
      scanSlave mock (slave_online.getD k false)
        (oracles.getD k ⟨false, false⟩) := by
  unfold scan_bus
  have hz : k < (slave_online.zip oracles).length := by
    rw [List.length_zip]; omega
  rw [getD_map_of_lt _ _ k (false, ⟨false, false⟩) _ hz,
    getD_zip _ _ k false ⟨false, false⟩ hk ho]

theorem scanSlave_online_of_offline (mock online : Bool) (o : ScanOracle)
    (h : scanSlave mock online o = true) (hoff : online = false) :
    mock = true ∨ (o.reopenOk = true ∧ o.isOpen = true) := by
  subst hoff
  rcases o with ⟨ro, io⟩
  cases mock <;> cases ro <;> cases io <;> simp_all [scanSlave]

theorem scanSlave_offline_of_online (mock online : Bool) (o : ScanOracle)
    (h : scanSlave mock online o = false) (hon : online = true) :
    mock = false ∧ o.isOpen = false := by
  subst hon
  rcases o with ⟨ro, io⟩
  cases mock <;> cases ro <;> cases io <;> simp_all [scanSlave]

/-! ## Claim theorems -/

/-- C3: for every ordered sequence of `N` binary values, `_pack_bits`
produces exactly `⌈N/8⌉` bytes; bit `b` of output byte `i` equals input
position `i*8+b` (LSB-first, a bit is set exactly when the input value there
is non-zero), and every bit at a position `≥ N` — in the final byte and
beyond — is `0`. -/
theorem C3_pack_bits_spec (bits : List Nat) :
    (pack_bits bits).length = (bits.length + 7) / 8 ∧
    ∀ i b : Nat, b < 8 →
      Nat.testBit ((pack_bits bits).getD i 0) b =
        (decide (i * 8 + b < bits.length) &&
          decide (bits.getD (i * 8 + b) 0 ≠ 0)) := by
  constructor
  · simp [pack_bits]
  · intro i b hb
    have hcomm : 8 * i = i * 8 := by ring
    by_cases hi : i < (bits.length + 7) / 8
    · rw [pack_bits_getD bits i hi, packByteLoop_testBit, hcomm,
        decide_eq_true hb]
      simp
    · rw [pack_bits_getD_of_ge bits i hi]
      have h1 : ¬ (i * 8 + b < bits.length) := by omega
      rw [decide_eq_false h1]
      simp

/-- Witness for C3 at a concrete input: 10 bits pack into 2 bytes; byte 1
bit 1 is input position 9, and byte 1 bit 5 (position 13 ≥ 10) is zero. -/
theorem C3_pack_bits_spec_witness :
    (pack_bits [1, 0, 0, 0, 0, 0, 0, 0, 0, 1]).length = 2 ∧
    Nat.testBit ((pack_bits [1, 0, 0, 0, 0, 0, 0, 0, 0, 1]).getD 1 0) 1 = true ∧
    Nat.testBit ((pack_bits [1, 0, 0, 0, 0, 0, 0, 0, 0, 1]).getD 1 0) 5 = false := by
  refine ⟨(C3_pack_bits_spec [1, 0, 0, 0, 0, 0, 0, 0, 0, 1]).1.trans (by norm_num),
    ?_, ?_⟩
  · rw [(C3_pack_bits_spec [1, 0, 0, 0, 0, 0, 0, 0, 0, 1]).2 1 1 (by norm_num)]
    decide
  · rw [(C3_pack_bits_spec [1, 0, 0, 0, 0, 0, 0, 0, 0, 1]).2 1 5 (by norm_num)]
    decide

/-- C4: with one slave of 8 channels and the buffer `[1,0,1,1,0,0,0,0]`,
the chunk packs to the single byte `0x0D`, and `dispatch_frame` delivers the
wire frame `FF AA 01 0D 55 FF` to that slave: start marker `FF AA`, one
length byte equal to the packed byte count (1, not the channel count 8),
the payload, and the end marker `55 FF`. -/
theorem C4_concrete_frame :
    pack_bits [1, 0, 1, 1, 0, 0, 0, 0] = [0x0D] ∧
    dispatch_frame ⟨8, 8⟩ [true] [false] [1, 0, 1, 1, 0, 0, 0, 0] =
      ⟨[1, 0, 1, 1, 0, 0, 0, 0],
        [(true, true, some [0xFF, 0xAA, 0x01, 0x0D, 0x55, 0xFF])]⟩ := by
  decide

/-- C8: `set_led` is a total function (never raises) such that for an
in-range index the channel becomes `1` exactly when `state` is non-zero,
every other position is untouched, and an out-of-range index (negative or
`≥ total_leds`) leaves the whole buffer unchanged. -/
theorem C8_set_led_spec (total_leds : Nat) (buffer : List Nat)
    (index state : Int) :
    (set_led total_leds buffer index state).length = buffer.length ∧
    (∀ j : Nat, j < buffer.length →
      (set_led total_leds buffer index state).getD j 0 =
        if (j : Int) = index ∧ 0 ≤ index ∧ index < (total_leds : Int)
        then (if state ≠ 0 then 1 else 0)
        else buffer.getD j 0) ∧
    (¬ (0 ≤ index ∧ index < (total_leds : Int)) →
      set_led total_leds buffer index state = buffer) := by
  refine ⟨?_, ?_, ?_⟩
  · unfold set_led
    split <;> simp
  · intro j hj
    unfold set_led
    by_cases hin : 0 ≤ index ∧ index < (total_leds : Int)
    · rw [if_pos hin]
      by_cases hji : (j : Int) = index
      · have htn : index.toNat = j := by omega
        have hset : (buffer.set index.toNat
              (if state ≠ 0 then 1 else 0)).getD j 0 =
            (if state ≠ 0 then 1 else 0) := by
          rw [List.getD_eq_getElem _ _ (by simpa using hj), htn]
          exact List.getElem_set_self _
        have hc : (j : Int) = index ∧ 0 ≤ index ∧ index < (total_leds : Int) :=
          ⟨hji, hin⟩
        rw [hset, if_pos hc]
      · have htn : index.toNat ≠ j := by omega
        have hset : (buffer.set index.toNat
              (if state ≠ 0 then 1 else 0)).getD j 0 = buffer.getD j 0 := by
          rw [List.getD_eq_getElem _ _ (by simpa using hj),
            List.getD_eq_getElem _ _ hj]
          exact List.getElem_set_ne htn _
        have hc : ¬ ((j : Int) = index ∧ 0 ≤ index ∧
            index < (total_leds : Int)) := fun hcc => hji hcc.1
        rw [hset, if_neg hc]
    · have hc : ¬ ((j : Int) = index ∧ 0 ≤ index ∧
          index < (total_leds : Int)) := fun hcc => hin hcc.2
      rw [if_neg hin, if_neg hc]
  · intro hout
    unfold set_led
    exact if_neg hout

/-- Witness for C8 at concrete inputs: setting index 1 of `[0,0,0]` to a
non-zero state yields `1` there and leaves index 0 alone; a negative index
is a silent no-op. -/
theorem C8_set_led_spec_witness :
    (set_led 3 [0, 0, 0] 1 2).length = 3 ∧
    (set_led 3 [0, 0, 0] 1 2).getD 1 0 = 1 ∧
    (set_led 3 [0, 0, 0] 1 2).getD 0 0 = 0 ∧
    set_led 3 [0, 0, 0] (-1) 2 = [0, 0, 0] := by
  refine ⟨(C8_set_led_spec 3 [0, 0, 0] 1 2).1.trans (by decide), ?_, ?_, ?_⟩
  · rw [(C8_set_led_spec 3 [0, 0, 0] 1 2).2.1 1 (by decide)]
    decide
  · rw [(C8_set_led_spec 3 [0, 0, 0] 1 2).2.1 0 (by decide)]
    decide
  · exact (C8_set_led_spec 3 [0, 0, 0] (-1) 2).2.2 (by decide)

/-- C9: for the chase and circle animations with 5 total channels and
width 1, the position after `k` steps is `k % 5` — it advances by 1 modulo
the channel count, so the sequence is 0,1,2,3,4,0,1,..., never negative and
never ≥ 5 — and every channel index set by a step is in `[0, 5)`. -/
theorem C9_chase_circle_wrap (k : Nat) :
    (scanningChase_next 5)^[k] 0 = k % 5 ∧
    (circle_next 5)^[k] 0 = k % 5 ∧
    k % 5 < 5 ∧
    (∀ idx ∈ scanningChase_lit 5 1 (k % 5), idx < 5) ∧
    (∀ idx ∈ circle_lit (k % 5), idx < 5) := by
  have hchase : ∀ j : Nat, (scanningChase_next 5)^[j] 0 = j % 5 := by
    intro j
    induction j with
    | zero => simp
    | succ n ih =>
      rw [Function.iterate_succ_apply', ih]
      unfold scanningChase_next
      omega
  have hcircle : ∀ j : Nat, (circle_next 5)^[j] 0 = j % 5 := by
    intro j
    induction j with
    | zero => simp
    | succ n ih =>
      rw [Function.iterate_succ_apply', ih]
      unfold circle_next
      omega
  refine ⟨hchase k, hcircle k, Nat.mod_lt _ (by norm_num), ?_, ?_⟩
  · intro idx hidx
    unfold scanningChase_lit at hidx
    simp only [List.mem_map, List.mem_range] at hidx
    obtain ⟨i, _, hi⟩ := hidx
    omega
  · intro idx hidx
    unfold circle_lit at hidx
    simp only [List.mem_singleton] at hidx
    omega

/-- Witness for C9 at `k = 7`: position `7 % 5 = 2` for both animations, and
the single lit channel is in range. -/
theorem C9_chase_circle_wrap_witness :
    (scanningChase_next 5)^[7] 0 = 7 % 5 ∧
    (circle_next 5)^[7] 0 = 7 % 5 ∧
    (2 : Nat) ∈ circle_lit (7 % 5) ∧ (2 : Nat) < 5 :=
  ⟨(C9_chase_circle_wrap 7).1, (C9_chase_circle_wrap 7).2.1, by decide,
    (C9_chase_circle_wrap 7).2.2.2.2 2 (by decide)⟩

/-- C10: when `dispatch_frame` receives a frame shorter than the total
channel count, the caller's list object is extended in place with zeros up
to the total channel count (`frame_data += [0] * ...` is Python in-place
list extension), so the caller-visible buffer after the call is the padded
list and differs from the list passed in. -/
theorem C10_pad_in_place (cfg : RCConfig) (slave_online writeFails : List Bool)
    (frame : List Nat) (h : frame.length < cfg.total_relays) :
    (dispatch_frame cfg slave_online writeFails frame).frameAfter =
      frame ++ List.replicate (cfg.total_relays - frame.length) 0 ∧
    (dispatch_frame cfg slave_online writeFails frame).frameAfter ≠ frame := by
  have hfa : (dispatch_frame cfg slave_online writeFails frame).frameAfter =
      padFrame cfg.total_relays frame := rfl
  have hpad : padFrame cfg.total_relays frame =
      frame ++ List.replicate (cfg.total_relays - frame.length) 0 := if_pos h
  refine ⟨hfa.trans hpad, ?_⟩
  rw [hfa, hpad]
  intro heq
  have hlen := congrArg List.length heq
  simp only [List.length_append, List.length_replicate] at hlen
  omega

/-- Witness for C10: a 1-element frame with 3 total channels is observably
extended to `[1, 0, 0]`. -/
theorem C10_pad_in_place_witness :
    (dispatch_frame ⟨8, 3⟩ [] [] [1]).frameAfter =
      [1] ++ List.replicate (3 - List.length [1]) 0 ∧
    (dispatch_frame ⟨8, 3⟩ [] [] [1]).frameAfter ≠ [1] :=
  C10_pad_in_place ⟨8, 3⟩ [] [] [1] (by decide)

/-- C2: if every slave is online before a dispatch and the write for slave
`i₀` raises while all other writes succeed, then after that single
`dispatch_frame` call slave `i₀` is offline and every other slave is still
online with its packet delivered in that same call; the exception is
absorbed (the embedded function is total and returns this value). -/
theorem C2_fault_isolation (cfg : RCConfig) (n i₀ : Nat) (frame : List Nat)
    (writeFails : List Bool) (hn : writeFails.length = n) (hi : i₀ < n)
    (hf : ∀ j, j < n → writeFails.getD j false = decide (j = i₀)) :
    ∀ j, j < n →
      (dispatch_frame cfg (List.replicate n true) writeFails frame).slaves.getD j
          (false, false, none) =
        if j = i₀ then (false, true, none)
        else (true, true, some (slavePacket cfg.leds_per_slave
          (padFrame cfg.total_relays frame) j)) := by
  intro j hj
  rw [dispatch_frame_slaves_getD cfg _ _ frame j (by simpa using hj)
    (by omega), getD_replicate _ _ n j hj, hf j hj]
  by_cases hji : j = i₀
  · rw [if_pos hji, decide_eq_true hji]
    simp [dispatchSlave]
  · rw [if_neg hji, decide_eq_false hji]
    simp [dispatchSlave]

/-- Witness for C2: two slaves, both online, write to slave 0 fails; slave 0
is offline with no delivery, slave 1 stays online and got its packet. -/
theorem C2_fault_isolation_witness :
    (dispatch_frame ⟨8, 16⟩ (List.replicate 2 true) [true, false] []).slaves.getD 0
        (false, false, none) = (false, true, none) ∧
    (dispatch_frame ⟨8, 16⟩ (List.replicate 2 true) [true, false] []).slaves.getD 1
        (false, false, none) =
      (true, true, some (slavePacket 8 (padFrame 16 []) 1)) := by
  have h := C2_fault_isolation ⟨8, 16⟩ 2 0 [] [true, false] (by decide)
    (by decide) (by decide)
  constructor
  · have h0 := h 0 (by decide)
    rw [if_pos rfl] at h0
    exact h0
  · have h1 := h 1 (by decide)
    rw [if_neg (by decide)] at h1
    exact h1

/-- C7 counterexample: the claim says a failed buffer reset leaves the
slave's liveness unchanged (logged only).  False: in non-mock mode a single
online slave whose reset raises is marked offline by `reset_buffers`
(`self.slave_online[i] = False` in the `except` branch). -/
theorem C7_counterexample :
    ¬ (∀ (mock : Bool) (slave_online resetFails : List Bool) (k : Nat),
        ((reset_buffers mock slave_online resetFails).getD k (false, false)).1 =
          slave_online.getD k false) := by
  intro h
  have hx := h false [true] [true] 0
  exact absurd hx (by decide)

/-- C7 (amended): `reset_buffers` attempts a reset on every online slave and
skips offline ones; in mock mode it is a no-op; and a failed reset marks
that slave offline (in addition to being logged), while a successful reset
leaves it online. -/
theorem C7_reset_buffers_amended (mock : Bool)
    (slave_online resetFails : List Bool) (k : Nat)
    (hk : k < slave_online.length) (hr : k < resetFails.length) :
    (mock = true →
      (reset_buffers mock slave_online resetFails).getD k (false, false) =
        (slave_online.getD k false, false)) ∧
    (mock = false →
      ((reset_buffers mock slave_online resetFails).getD k (false, false)).2 =
        slave_online.getD k false) ∧
    (mock = false →
      ((reset_buffers mock slave_online resetFails).getD k (false, false)).1 =
        (slave_online.getD k false && !(resetFails.getD k false))) := by
  rw [reset_buffers_getD mock slave_online resetFails k hk hr]
  refine ⟨?_, ?_, ?_⟩
  · intro hm
    rw [if_pos hm]
  · intro hm
    subst hm
    simp only [Bool.false_eq_true, if_false]
    cases honline : slave_online.getD k false <;>
      cases hfails : resetFails.getD k false <;> simp [resetSlave]
  · intro hm
    subst hm
    simp only [Bool.false_eq_true, if_false]
    cases honline : slave_online.getD k false <;>
      cases hfails : resetFails.getD k false <;> simp [resetSlave]

/-- Witness for C7 (amended) at a concrete state: one online slave whose
reset succeeds is attempted and stays online. -/
theorem C7_reset_buffers_amended_witness :
    ((reset_buffers false [true] [false]).getD 0 (false, false)).2 =
      [true].getD 0 false ∧
    ((reset_buffers false [true] [false]).getD 0 (false, false)).1 =
      ([true].getD 0 false && !([false].getD 0 false)) :=
  ⟨(C7_reset_buffers_amended false [true] [false] 0 (by decide) (by decide)).2.1
      rfl,
    (C7_reset_buffers_amended false [true] [false] 0 (by decide) (by decide)).2.2
      rfl⟩

/-- C5 counterexample: the claim says liveness goes ONLINE→OFFLINE only on a
transport-level *write* failure.  False: `scan_bus` performs no write, yet it
marks an online slave offline when the `is_open` check finds its port
closed (and `reset_buffers` does the same on a failed reset). -/
theorem C5_counterexample :
    ¬ (∀ (mock : Bool) (slave_online : List Bool) (oracles : List ScanOracle)
          (k : Nat),
        (scan_bus mock slave_online oracles).getD k false = false →
        slave_online.getD k false = false) := by
  intro h
  have hx := h false [true] [⟨false, false⟩] 0 (by decide)
  exact absurd hx (by decide)

/-- C5 (amended): every dispatch skips each offline slave entirely (no write
attempted, it stays offline); an online slave goes offline in `dispatch_frame`
exactly when its write fails, and its packet is delivered otherwise; a slave
goes OFFLINE→ONLINE only through `scan_bus` when reopening succeeds (mock
mode, or a successful reopen with the port then open); `scan_bus` demotes an
online slave only when not in mock mode and its port is found closed; and
`reset_buffers` demotes an online slave only in non-mock mode when its reset
fails. -/
theorem C5_liveness_amended (cfg : RCConfig) (mock : Bool)
    (slave_online writeFails resetFails : List Bool)
    (oracles : List ScanOracle) (frame : List Nat) (k : Nat)
    (hk : k < slave_online.length) (hw : k < writeFails.length)
    (hr : k < resetFails.length) (ho : k < oracles.length) :
    (slave_online.getD k false = false →
      (dispatch_frame cfg slave_online writeFails frame).slaves.getD k
        (false, false, none) = (false, false, none)) ∧
    (slave_online.getD k false = true →
      (dispatch_frame cfg slave_online writeFails frame).slaves.getD k
        (false, false, none) =
        (!(writeFails.getD k false), true,
          if writeFails.getD k false = true then none
          else some (slavePacket cfg.leds_per_slave
            (padFrame cfg.total_relays frame) k))) ∧
    ((scan_bus mock slave_online oracles).getD k false = true →
      slave_online.getD k false = false →
      (mock = true ∨ ((oracles.getD k ⟨false, false⟩).reopenOk = true ∧
        (oracles.getD k ⟨false, false⟩).isOpen = true))) ∧
    (slave_online.getD k false = true →
      (scan_bus mock slave_online oracles).getD k false = false →
      (mock = false ∧ (oracles.getD k ⟨false, false⟩).isOpen = false)) ∧
    (slave_online.getD k false = true →
      ((reset_buffers mock slave_online resetFails).getD k (false, false)).1 =
        false →
      (mock = false ∧ resetFails.getD k false = true)) := by
  refine ⟨?_, ?_, ?_, ?_, ?_⟩
  · intro hoff
    rw [dispatch_frame_slaves_getD cfg _ _ frame k hk hw, hoff]
    simp [dispatchSlave]
  · intro hon
    rw [dispatch_frame_slaves_getD cfg _ _ frame k hk hw, hon]
    cases hwr : writeFails.getD k false <;> simp [dispatchSlave]
  · intro hs hoff
    rw [scan_bus_getD mock slave_online oracles k hk ho] at hs
    exact scanSlave_online_of_offline mock _ _ hs hoff
  · intro hon hs
    rw [scan_bus_getD mock slave_online oracles k hk ho] at hs
    exact scanSlave_offline_of_online mock _ _ hs hon
  · intro hon hreset
    rw [reset_buffers_getD mock slave_online resetFails k hk hr] at hreset
    cases hm : mock
    · subst hm
      simp only [Bool.false_eq_true, if_false] at hreset
      rw [hon] at hreset
      cases hfails : resetFails.getD k false
      · rw [hfails] at hreset
        simp [resetSlave] at hreset
      · exact ⟨rfl, rfl⟩
    · subst hm
      rw [if_pos rfl] at hreset
      simp only at hreset
      rw [hon] at hreset
      cases hreset

/-- Witness for C5 (amended) at a concrete state: one online slave whose
write succeeds stays online and gets its packet; instantiating the other
conjuncts' hypotheses where satisfiable. -/
theorem C5_liveness_amended_witness :
    (dispatch_frame ⟨8, 8⟩ [true] [false] []).slaves.getD 0
        (false, false, none) =
      (!([false].getD 0 false), true,
        if [false].getD 0 false = true then none
        else some (slavePacket 8 (padFrame 8 []) 0)) ∧
    (false = false ∧ ([(⟨true, false⟩ : ScanOracle)].getD 0
        ⟨false, false⟩).isOpen = false) :=
  ⟨(C5_liveness_amended ⟨8, 8⟩ false [true] [false] [false]
      [⟨true, false⟩] [] 0 (by decide) (by decide) (by decide) (by decide)).2.1
      rfl,
    (C5_liveness_amended ⟨8, 8⟩ false [true] [false] [false]
      [⟨true, false⟩] [] 0 (by decide) (by decide) (by decide) (by decide)).2.2.2.1
      rfl (by decide)⟩

/-- C6 counterexample: the claim asserts the rendered position sequence
0,1,2,...,7,6,5,...,0,1,... (captured by `larsonSpecSeq`).  False: after
rendering position 7 the code first increments `pos` to 8 and only then
flips the direction, so step 8 renders position 8 (and symmetrically −1 at
the low end), not 6. -/
theorem C6_counterexample :
    ¬ (∀ k : Nat, ((larson_step 10 3)^[k] larson_init).pos = larsonSpecSeq k) := by
  intro h
  have h8 := h 8
  have hcode : ((larson_step 10 3)^[8] larson_init).pos = 8 := by decide
  have hspec : larsonSpecSeq 8 = 6 := by decide
  rw [hcode, hspec] at h8
  exact absurd h8 (by decide)

/-- C6 (amended): for 10 channels, width 3, start 0, the position sequence
is periodic with period 18: 0,1,...,7,8,7,6,...,1,0,−1,0,1,... — direction
flips exactly when the incremented position passes `total − width` (its
window's far edge reaching past channel 10) or drops below 0; the two
overshoot positions 8 and −1 are rendered but clipped by the per-index
bounds guard, so no step ever sets a channel index outside `[0, 10)`. -/
theorem C6_larson_amended (k : Nat) :
    ((larson_step 10 3)^[k] larson_init).pos = larsonCodeSeq k ∧
    (∀ idx ∈ larson_lit 10 3 ((larson_step 10 3)^[k] larson_init).pos,
      0 ≤ idx ∧ idx < 10) := by
  have hper : (larson_step 10 3)^[18] larson_init = larson_init := by decide
  have hcycle : ∀ q : Nat, (larson_step 10 3)^[18 * q] larson_init =
      larson_init := by
    intro q
    induction q with
    | zero => rfl
    | succ q' ih =>
      rw [show 18 * (q' + 1) = 18 * q' + 18 by ring,
        Function.iterate_add_apply, hper, ih]
  have hiter : (larson_step 10 3)^[k] larson_init =
      (larson_step 10 3)^[k % 18] larson_init := by
    conv_lhs => rw [show k = k % 18 + 18 * (k / 18) from by omega]
    rw [Function.iterate_add_apply, hcycle]
  have hsmall : ∀ r : Nat, r < 18 →
      ((larson_step 10 3)^[r] larson_init).pos = larsonCodeSeq r := by decide
  constructor
  · rw [hiter, hsmall (k % 18) (Nat.mod_lt _ (by norm_num))]
    have hmm : (k % 18) % 18 = k % 18 := by omega
    unfold larsonCodeSeq
    rw [hmm]
  · intro idx hidx
    unfold larson_lit at hidx
    rw [List.mem_filter] at hidx
    have hbits := hidx.2
    simp only [Bool.and_eq_true, decide_eq_true_eq] at hbits
    exact ⟨hbits.1, by exact_mod_cast hbits.2⟩

/-- Witness for C6 (amended) at `k = 8`: the overshoot position 8, whose lit
channel 9 is still inside `[0, 10)`. -/
theorem C6_larson_amended_witness :
    ((larson_step 10 3)^[8] larson_init).pos = larsonCodeSeq 8 ∧
    (0 ≤ (9 : Int) ∧ (9 : Int) < 10) :=
  ⟨(C6_larson_amended 8).1, (C6_larson_amended 8).2 9 (by decide)⟩

/-- C1 counterexample: the claim says consecutive `show` calls are separated
by at least `max(s, m)` regardless of the step's own computation time.
False: with speed 1/10, minimum 1/20, a step whose pattern computation takes
1 time unit is followed (after a sleepless `safe_wait`) by a step with
instantaneous computation, so the two `show` calls coincide — gap 0, below
the target delay. -/
theorem C1_counterexample :
    stepShowTime (stepEnd (1/20) (1/10) 0 0 1 0) 0 - stepShowTime 0 1 <
      max (1/10 : ℚ) (1/20) := by
  have h := stepEnd_eq (1/20 : ℚ) (1/10) 0 1 0
  simp only [stepShowTime]
  rw [h]
  norm_num [max_def]

/-- C1 (amended): `safe_wait` guarantees that consecutive *step starts*
(equivalently, consecutive `safe_wait` completions, which set
`last_update_time`) are separated by at least `max(speed, min_relay_delay)`,
for any non-negative computation and dispatch times; consecutive `show`
calls enjoy the same bound whenever the second step's pre-`show` computation
time is at least the first's (e.g. both negligible), but not in general. -/
theorem C1_safe_interval_amended (m s last c₁ d₁ c₂ d₂ : ℚ)
    (hc₁ : 0 ≤ c₁) (hd₁ : 0 ≤ d₁) (hc₂ : 0 ≤ c₂) (hd₂ : 0 ≤ d₂) :
    max s m ≤ stepEnd m s last last c₁ d₁ - last ∧
    max s m ≤ stepEnd m s (stepEnd m s last last c₁ d₁)
        (stepEnd m s last last c₁ d₁) c₂ d₂ - stepEnd m s last last c₁ d₁ ∧
    (c₁ ≤ c₂ →
      max s m ≤ stepShowTime (stepEnd m s last last c₁ d₁) c₂ -
        stepShowTime last c₁) := by
  have h₁ := stepEnd_eq m s last c₁ d₁
  have h₂ := stepEnd_eq m s (stepEnd m s last last c₁ d₁) c₂ d₂
  have hle₁ := le_max_right (c₁ + d₁) (max s m)
  refine ⟨?_, ?_, ?_⟩
  · rw [h₁]
    linarith
  · rw [h₂]
    have hle₂ := le_max_right (c₂ + d₂) (max s m)
    linarith
  · intro hcc
    simp only [stepShowTime]
    rw [h₁]
    linarith

/-- Witness for C1 (amended) with speed 1/10, minimum 1/20 and equal small
step computation times 1/100. -/
theorem C1_safe_interval_amended_witness :
    max (1/10 : ℚ) (1/20) ≤ stepEnd (1/20) (1/10) 0 0 (1/100) 0 - 0 ∧
    max (1/10 : ℚ) (1/20) ≤
      stepEnd (1/20) (1/10) (stepEnd (1/20) (1/10) 0 0 (1/100) 0)
        (stepEnd (1/20) (1/10) 0 0 (1/100) 0) (1/100) 0 -
      stepEnd (1/20) (1/10) 0 0 (1/100) 0 ∧
    max (1/10 : ℚ) (1/20) ≤
      stepShowTime (stepEnd (1/20) (1/10) 0 0 (1/100) 0) (1/100) -
      stepShowTime 0 (1/100) := by
  have h := C1_safe_interval_amended (1/20) (1/10) 0 (1/100) 0 (1/100) 0
    (by norm_num) (by norm_num) (by norm_num) (by norm_num)
  exact ⟨h.1, h.2.1, h.2.2 (le_refl _)⟩

end Desyplan
